import Mathlib

set_option maxHeartbeats 1000000
set_option linter.unusedVariables false

/-!
Shallow embedding of the heuristic HCL→SAP transpiler
(`src/mcp_hcl_to_sap_project_up.py`, with the older variant
`src/mcp_hcl_to_sap.py` where a claim cites it).

The javalang AST is modelled by a mutual inductive: a node has a numeric
label (standing for its object identity), a kind (the isinstance checks the
code performs only distinguish `IfStatement` and `MethodInvocation`, the
latter carrying its `member` and `qualifier` attributes), and a `children`
attribute that is either missing (accessing it raises `AttributeError`) or a
list of child slots; each child slot is a single value or a one-level
sequence (list/tuple), and each element is `None`, a primitive scalar
(str/bool/int/float/set) or a node, exactly the cases `traverse_ast`
distinguishes.
-/

/-- The node kinds the classifier's `isinstance` checks distinguish. -/
inductive NodeKind : Type where
  | ifStatement : NodeKind
  | methodInvocation : String → Option String → NodeKind
  | other : String → NodeKind
deriving DecidableEq, Repr

mutual

inductive JNode : Type where
  | mk : Nat → NodeKind → ChildrenAttr → JNode

inductive ChildrenAttr : Type where
  | noAttr : ChildrenAttr
  | attr : ChildList → ChildrenAttr

inductive ChildList : Type where
  | nil : ChildList
  | cons : JChild → ChildList → ChildList

inductive JChild : Type where
  | single : JItem → JChild
  | seq : ItemList → JChild

inductive ItemList : Type where
  | nil : ItemList
  | cons : JItem → ItemList → ItemList

inductive JItem : Type where
  | absent : JItem
  | prim : JItem
  | node : JNode → JItem

end

/-- The label (object identity) of a node. -/
def JNode.label : JNode → Nat
  | .mk l _ _ => l

/-- The kind of a node. -/
def JNode.kind : JNode → NodeKind
  | .mk _ k _ => k

mutual

/-- Shallow embedding of `traverse_ast(node, visitor_func)`: the visitor is a
state transformer; the node itself is visited first, then the children
obtained from the `children` attribute are walked in order, flattening
one level of list/tuple-valued children; a node whose `children` accessor
raises `AttributeError` is treated as having no children; `None` and
primitive scalar children are skipped. -/
def traverse_ast {σ : Type} (f : σ → JNode → σ) (s : σ) : JNode → σ
  | .mk l k ca =>
    let s' := f s (.mk l k ca)
    match ca with
    | .noAttr => s'
    | .attr cl => traverseChildList f s' cl

def traverseChildList {σ : Type} (f : σ → JNode → σ) (s : σ) : ChildList → σ
  | .nil => s
  | .cons c rest => traverseChildList f (traverseChild f s c) rest

def traverseChild {σ : Type} (f : σ → JNode → σ) (s : σ) : JChild → σ
  | .single i => traverseItem f s i
  | .seq il => traverseItemList f s il

def traverseItemList {σ : Type} (f : σ → JNode → σ) (s : σ) : ItemList → σ
  | .nil => s
  | .cons i rest => traverseItemList f (traverseItem f s i) rest

def traverseItem {σ : Type} (f : σ → JNode → σ) (s : σ) : JItem → σ
  | .absent => s
  | .prim => s
  | .node n => traverse_ast f s n

end

mutual

/-- Specification-side enumeration: the nodes reachable from a node through
the `children` relation (the node itself first, then the reachable nodes of
each child in order), skipping primitives and absent children and flattening
one level of sequences. -/
def reachNodes : JNode → List JNode
  | .mk l k ca => .mk l k ca :: (match ca with
    | .noAttr => []
    | .attr cl => reachChildList cl)

def reachChildList : ChildList → List JNode
  | .nil => []
  | .cons c rest => reachChild c ++ reachChildList rest

def reachChild : JChild → List JNode
  | .single i => reachItem i
  | .seq il => reachItemList il

def reachItemList : ItemList → List JNode
  | .nil => []
  | .cons i rest => reachItem i ++ reachItemList rest

def reachItem : JItem → List JNode
  | .absent => []
  | .prim => []
  | .node n => reachNodes n

end

mutual

theorem traverse_ast_eq_foldl {σ : Type} (f : σ → JNode → σ) (s : σ) :
    ∀ n : JNode, traverse_ast f s n = (reachNodes n).foldl f s
  | .mk l k ca => by
    cases ca with
    | noAttr => simp [traverse_ast, reachNodes, List.foldl]
    | attr cl =>
      simp only [traverse_ast, reachNodes, List.foldl]
      exact traverseChildList_eq_foldl f (f s (.mk l k (.attr cl))) cl

theorem traverseChildList_eq_foldl {σ : Type} (f : σ → JNode → σ) (s : σ) :
    ∀ cl : ChildList, traverseChildList f s cl = (reachChildList cl).foldl f s
  | .nil => by simp [traverseChildList, reachChildList]
  | .cons c rest => by
    simp only [traverseChildList, reachChildList, List.foldl_append]
    rw [traverseChild_eq_foldl f s c]
    exact traverseChildList_eq_foldl f _ rest

theorem traverseChild_eq_foldl {σ : Type} (f : σ → JNode → σ) (s : σ) :
    ∀ c : JChild, traverseChild f s c = (reachChild c).foldl f s
  | .single i => by
    simp only [traverseChild, reachChild]
    exact traverseItem_eq_foldl f s i
  | .seq il => by
    simp only [traverseChild, reachChild]
    exact traverseItemList_eq_foldl f s il

theorem traverseItemList_eq_foldl {σ : Type} (f : σ → JNode → σ) (s : σ) :
    ∀ il : ItemList, traverseItemList f s il = (reachItemList il).foldl f s
  | .nil => by simp [traverseItemList, reachItemList]
  | .cons i rest => by
    simp only [traverseItemList, reachItemList, List.foldl_append]
    rw [traverseItem_eq_foldl f s i]
    exact traverseItemList_eq_foldl f _ rest

theorem traverseItem_eq_foldl {σ : Type} (f : σ → JNode → σ) (s : σ) :
    ∀ i : JItem, traverseItem f s i = (reachItem i).foldl f s
  | .absent => by simp [traverseItem, reachItem]
  | .prim => by simp [traverseItem, reachItem]
  | .node n => traverse_ast_eq_foldl f s n

end

/-- The list of nodes `traverse_ast` hands to the visitor, in visit order,
obtained by running the embedded traversal with a list-accumulating visitor
(the closure-over-mutable-state style of the source). -/
def visitedNodes (n : JNode) : List JNode :=
  traverse_ast (fun acc nd => acc ++ [nd]) [] n

theorem foldl_snoc_eq_append {α : Type} (l acc : List α) :
    l.foldl (fun a x => a ++ [x]) acc = acc ++ l := by
  induction l generalizing acc with
  | nil => simp
  | cons x xs ih => simp [List.foldl, ih]

/-- The stateful traversal visits exactly the nodes reachable through the
`children` relation, in pre-order. -/
theorem visitedNodes_eq_reachNodes (n : JNode) : visitedNodes n = reachNodes n := by
  rw [visitedNodes, traverse_ast_eq_foldl, foldl_snoc_eq_append]
  simp

/-! ## Pattern classifier: `is_controller_command` -/

/-- A javalang type reference (only its short `name` matters to the code). -/
structure TypeRef where
  name : String
deriving DecidableEq, Repr

/-- The attributes of a javalang `ClassDeclaration` that
`is_controller_command` and the extraction loop inspect: the class name, the
`implements` list (absent clause = `none`) and the `extends` reference. -/
structure ClassDeclaration where
  name : String
  implements : Option (List TypeRef)
  «extends» : Option TypeRef
deriving Repr

/-- Embedding of `is_controller_command(node)`: true when the `implements`
list (if truthy) contains a type named `ControllerCommand`, or the `extends`
reference (if truthy) is named `ControllerCommandImpl`. -/
def is_controller_command (node : ClassDeclaration) : Bool :=
  (match node.implements with
   | some ifaces => ifaces.any (fun i => i.name == "ControllerCommand")
   | none => false) ||
  (match node.«extends» with
   | some e => e.name == "ControllerCommandImpl"
   | none => false)

/-! ## Pattern classifier: `needs_facade` -/

/-- A method declaration as the pipeline keeps it: the javalang node tagged
by its `name` attribute. -/
structure MethodDecl where
  name : String
  node : JNode

/-- The three mutable cells of `needs_facade`'s closure visitor. -/
structure FState where
  has_if_statement : Bool
  put_calls : Nat
  has_command_context : Bool
deriving DecidableEq, Repr

/-- Embedding of the `visitor` closure in `needs_facade`: the source performs
three sequential `isinstance` checks (an `IfStatement` sets the first cell; a
`MethodInvocation` with member `put` and qualifier `resp` bumps the counter; a
`MethodInvocation` qualified by `commandContext` sets the third cell); since a
node has exactly one kind, the two invocation checks apply in sequence in the
invocation branch. -/
def facadeVisitor (s : FState) (n : JNode) : FState :=
  match n.kind with
  | NodeKind.ifStatement => { s with has_if_statement := true }
  | NodeKind.methodInvocation member qual =>
    let s2 := if member == "put" && qual == some "resp" then
      { s with put_calls := s.put_calls + 1 } else s
    if qual == some "commandContext" then
      { s2 with has_command_context := true } else s2
  | NodeKind.other _ => s

/-- Embedding of `needs_facade(methods, properties)`: traverse every method
named `performExecute` with the flag-collecting visitor, then combine the
three flags. -/
def needs_facade (methods : List MethodDecl) (properties : List String) : Bool :=
  let final := methods.foldl
    (fun st m => if m.name == "performExecute" then traverse_ast facadeVisitor st m.node else st)
    ⟨false, 0, false⟩
  final.has_if_statement || decide (final.put_calls > 1) || final.has_command_context

/-- Specification side: the nodes in the subtrees of the methods named
`performExecute`, in order. -/
def perfNodes (methods : List MethodDecl) : List JNode :=
  (methods.filter (fun m => m.name == "performExecute")).flatMap (fun m => reachNodes m.node)

/-- An if-statement node. -/
def isIfNode (n : JNode) : Bool := n.kind == NodeKind.ifStatement

/-- A method invocation with member `put` and qualifier `resp`. -/
def isRespPut (n : JNode) : Bool :=
  match n.kind with
  | NodeKind.methodInvocation member qual => member == "put" && qual == some "resp"
  | _ => false

/-- A method invocation whose qualifier is `commandContext`. -/
def isCommandContextCall (n : JNode) : Bool :=
  match n.kind with
  | NodeKind.methodInvocation _ qual => qual == some "commandContext"
  | _ => false

/-- Spec-side flag: some if-statement node appears in a `performExecute` subtree. -/
def specHasConditional (methods : List MethodDecl) : Bool :=
  (perfNodes methods).any isIfNode

/-- Spec-side count of `resp.put(...)` invocations in `performExecute` subtrees. -/
def specResponseWriteCount (methods : List MethodDecl) : Nat :=
  (perfNodes methods).countP (fun n => isRespPut n)

/-- Spec-side flag: some invocation qualified by `commandContext` appears. -/
def specUsesExecutionContext (methods : List MethodDecl) : Bool :=
  (perfNodes methods).any isCommandContextCall

theorem facadeVisitor_has_if (s : FState) (n : JNode) :
    (facadeVisitor s n).has_if_statement = (s.has_if_statement || isIfNode n) := by
  cases n with
  | mk l k ca =>
    cases k with
    | ifStatement => simp [facadeVisitor, isIfNode, JNode.kind]
    | methodInvocation m q =>
      simp only [facadeVisitor, isIfNode, JNode.kind]
      split <;> split <;> simp
    | other t => simp [facadeVisitor, isIfNode, JNode.kind]

theorem facadeVisitor_put (s : FState) (n : JNode) :
    (facadeVisitor s n).put_calls = s.put_calls + (if isRespPut n then 1 else 0) := by
  cases n with
  | mk l k ca =>
    cases k with
    | ifStatement => simp [facadeVisitor, isRespPut, JNode.kind]
    | methodInvocation m q =>
      simp only [facadeVisitor, isRespPut, JNode.kind]
      split <;> split <;> simp_all
    | other t => simp [facadeVisitor, isRespPut, JNode.kind]

theorem facadeVisitor_cc (s : FState) (n : JNode) :
    (facadeVisitor s n).has_command_context = (s.has_command_context || isCommandContextCall n) := by
  cases n with
  | mk l k ca =>
    cases k with
    | ifStatement => simp [facadeVisitor, isCommandContextCall, JNode.kind]
    | methodInvocation m q =>
      simp only [facadeVisitor, isCommandContextCall, JNode.kind]
      split <;> split <;> simp_all
    | other t => simp [facadeVisitor, isCommandContextCall, JNode.kind]

theorem foldl_facadeVisitor (l : List JNode) (s : FState) :
    l.foldl facadeVisitor s =
      ⟨s.has_if_statement || l.any isIfNode,
       s.put_calls + l.countP (fun n => isRespPut n),
       s.has_command_context || l.any isCommandContextCall⟩ := by
  induction l generalizing s with
  | nil => simp
  | cons x xs ih =>
    rw [List.foldl_cons, ih]
    rw [facadeVisitor_has_if, facadeVisitor_put, facadeVisitor_cc]
    simp [List.any_cons, List.countP_cons, Bool.or_assoc]
    omega

theorem needs_facade_foldl (methods : List MethodDecl) (s : FState) :
    methods.foldl
      (fun st m => if m.name == "performExecute" then traverse_ast facadeVisitor st m.node else st)
      s = (perfNodes methods).foldl facadeVisitor s := by
  induction methods generalizing s with
  | nil => simp [perfNodes]
  | cons m rest ih =>
    rw [List.foldl_cons]
    by_cases h : (m.name == "performExecute") = true
    · rw [if_pos h, ih, traverse_ast_eq_foldl]
      have hperf : perfNodes (m :: rest) = reachNodes m.node ++ perfNodes rest := by
        simp [perfNodes, List.filter_cons, h]
      rw [hperf, List.foldl_append]
    · rw [if_neg h, ih]
      have hperf : perfNodes (m :: rest) = perfNodes rest := by
        simp [perfNodes, List.filter_cons, h]
      rw [hperf]

/-! ## Template emitters -/

/-- Embedding of Python `"\n".join(lines)`. -/
def joinLines : List String → String
  | [] => ""
  | [x] => x
  | x :: xs => x ++ "\n" ++ joinLines xs

theorem append_eq_empty_left {x y : String} (h : x ++ y = "") : x = "" := by
  have hd := congrArg String.data h
  simp only [String.data_append] at hd
  rcases List.append_eq_nil.mp hd with ⟨h1, _⟩
  exact String.ext h1

theorem joinLines_cons_ne_empty (x : String) (xs : List String) (h : x ≠ "") :
    joinLines (x :: xs) ≠ "" := by
  cases xs with
  | nil => simpa [joinLines] using h
  | cons y ys =>
    intro hc
    exact h (append_eq_empty_left (append_eq_empty_left (by simpa [joinLines] using hc)))

/-- Embedding of Python `class_name.lower()` (character-wise lower-casing;
identical to `str.lower` on the ASCII identifiers involved). -/
def pyLower (s : String) : String := String.mk (s.data.map Char.toLower)

/-- Embedding of `prop[0].upper() + prop[1:]`. Python raises `IndexError` on
an empty string; the pipeline only reaches this with parsed declarator
names, which are nonempty, and every theorem below evaluates it on nonempty
names only. -/
def capFirst (s : String) : String :=
  match s.data with
  | [] => ""
  | c :: cs => String.mk (c.toUpper :: cs)

/-- The layer suffix the controller splices in: `Facade` when the facade is
used, else `Service` (the `'Facade' if use_facade else 'Service'`
expressions of the source). -/
def layerSuffix (use_facade : Bool) : String :=
  if use_facade then "Facade" else "Service"

/-- The four lines the controller loop appends for one method named
`performExecute`. -/
def controllerEndpointLines (class_name : String) (use_facade : Bool) : List String :=
  ["    @PostMapping(\"/api/" ++ pyLower class_name ++ "\")",
   "    public ResponseDTO execute(@RequestBody " ++ class_name ++ "DTO request) \x7b",
   "        return " ++ pyLower class_name ++ layerSuffix use_facade ++ ".execute(request);",
   "    \x7d"]

/-- The initial `controller_code` list of `generate_spring_controller`:
imports, annotation, class header, delegate field and constructor. -/
def controllerHeaderLines (class_name : String) (use_facade : Bool) : List String :=
  ["import org.springframework.web.bind.annotation.RestController;",
     "import org.springframework.web.bind.annotation.PostMapping;",
     "import org.springframework.web.bind.annotation.RequestBody;",
     "import com.example.ResponseDTO;",
     "@RestController",
     "public class " ++ class_name ++ "Controller \x7b",
     "    private final " ++ class_name ++ layerSuffix use_facade ++ " " ++
       pyLower class_name ++ layerSuffix use_facade ++ ";",
     "    public " ++ class_name ++ "Controller(" ++ class_name ++ layerSuffix use_facade ++
       " " ++ pyLower class_name ++ layerSuffix use_facade ++ ") \x7b",
     "        this." ++ pyLower class_name ++ layerSuffix use_facade ++ " = " ++
       pyLower class_name ++ layerSuffix use_facade ++ ";",
     "    \x7d"]

/-- Embedding of `generate_spring_controller` up to the final `"\n".join`:
the fixed header, then per method named `performExecute` the endpoint
lines, then the closing brace. -/
def generate_spring_controller_lines (class_name : String) (methods : List MethodDecl)
    (properties : List String) (use_facade : Bool) : List String :=
  (methods.foldl
    (fun acc m => if m.name == "performExecute" then
      acc ++ controllerEndpointLines class_name use_facade else acc)
    (controllerHeaderLines class_name use_facade)) ++ ["\x7d"]

/-- Embedding of `generate_spring_controller` (the joined text). -/
def generate_spring_controller (class_name : String) (methods : List MethodDecl)
    (properties : List String) (use_facade : Bool) : String :=
  joinLines (generate_spring_controller_lines class_name methods properties use_facade)

/-- Embedding of `generate_spring_facade` (fixed template with `class_name`
splices; `methods` and `properties` are accepted and ignored, as in the
source). -/
def generate_spring_facade (class_name : String) (methods : List MethodDecl)
    (properties : List String) : String :=
  joinLines
    (["import org.springframework.stereotype.Component;",
      "import com.example.ResponseDTO;",
      "import de.hybris.platform.core.model.order.OrderModel;",
      "import de.hybris.platform.order.OrderService;",
      "import de.hybris.platform.servicelayer.model.ModelService;",
      "@Component",
      "public class " ++ class_name ++ "Facade \x7b",
      "    private final " ++ class_name ++ "Service " ++ pyLower class_name ++ "Service;",
      "    private final OrderService orderService;",
      "    private final ModelService modelService;",
      "",
      "    public " ++ class_name ++ "Facade(" ++ class_name ++ "Service " ++
        pyLower class_name ++ "Service, OrderService orderService, ModelService modelService) \x7b",
      "        this." ++ pyLower class_name ++ "Service = " ++ pyLower class_name ++ "Service;",
      "        this.orderService = orderService;",
      "        this.modelService = modelService;",
      "    \x7d",
      "    public ResponseDTO execute(" ++ class_name ++ "DTO request) \x7b",
      "        ResponseDTO response = new ResponseDTO();",
      "        try \x7b",
      "            if (request.getOrderId() != null && request.getUserId() != null && request.getPaymentMethod() != null) \x7b",
      "                OrderModel order = orderService.getOrderForCode(request.getOrderId());",
      "                if (\"CREDIT_CARD\".equals(request.getPaymentMethod()) && \"PENDING\".equals(order.getStatus().getCode())) \x7b",
      "                    response.setStatus(\"success\");",
      "                    response.setOrderId(request.getOrderId());",
      "                    response.setMessage(\"Order processed successfully\");",
      "                    // Add storeId from configuration or service if needed",
      "                \x7d else \x7b",
      "                    response.setStatus(\"failure\");",
      "                    response.setError(\"Invalid payment method or order status\");",
      "                \x7d",
      "            \x7d else \x7b",
      "                response.setStatus(\"failure\");",
      "                response.setError(\"Missing required fields\");",
      "            \x7d",
      "        \x7d catch (Exception e) \x7b",
      "            response.setStatus(\"failure\");",
      "            response.setError(\"Error processing order: \" + e.getMessage());",
      "        \x7d",
      "        return response;",
      "    \x7d"] ++ ["\x7d"])

/-- Embedding of `generate_spring_service` (project_up variant; note the
source's literal `"    }}"` line, which is not an f-string). -/
def generate_spring_service (class_name : String) (methods : List MethodDecl) : String :=
  joinLines
    (["import org.springframework.stereotype.Service;",
      "import com.example.ResponseDTO;",
      "import de.hybris.platform.core.model.order.OrderModel;",
      "import de.hybris.platform.order.OrderService;",
      "@Service",
      "public class " ++ class_name ++ "Service \x7b",
      "    private final OrderService orderService;",
      "",
      "    public " ++ class_name ++ "Service(OrderService orderService) \x7b",
      "        this.orderService = orderService;",
      "    \x7d",
      "    public ResponseDTO execute(" ++ class_name ++ "DTO request) \x7b",
      "        ResponseDTO response = new ResponseDTO();",
      "        // Delegate to SAP Commerce OrderService for persistence",
      "        try \x7b",
      "            OrderModel order = orderService.getOrderForCode(request.getOrderId());",
      "            response.setStatus(\"success\");",
      "        \x7d catch (Exception e) \x7b",
      "            response.setStatus(\"failure\");",
      "            response.setError(\"Service error: \" + e.getMessage());",
      "        \x7d",
      "        return response;",
      "    \x7d\x7d"] ++ ["\x7d"])

/-- Spec-side text of the one field declaration line `generate_dto` emits
for a field name. -/
def dtoFieldLine (prop : String) : String := "    private String " ++ prop ++ ";"

/-- Spec-side text of the getter/setter pair `generate_dto` emits for a
field name. -/
def dtoAccessorLines (prop : String) : List String :=
  ["    public String get" ++ capFirst prop ++ "() \x7b return " ++ prop ++ "; \x7d",
   "    public void set" ++ capFirst prop ++ "(String " ++ prop ++ ") \x7b this." ++
     prop ++ " = " ++ prop ++ "; \x7d"]

/-- Embedding of the loop of `generate_dto`: one pass over `properties`
appending to the two accumulator lists `fields` and `getters_setters`. -/
def generate_dto_lists (properties : List String) : List String × List String :=
  properties.foldl
    (fun acc prop => (acc.1 ++ [dtoFieldLine prop], acc.2 ++ dtoAccessorLines prop))
    ([], [])

/-- Embedding of `generate_dto` up to the final `"\n".join`. -/
def generate_dto_lines (class_name : String) (properties : List String) : List String :=
  ["public class " ++ class_name ++ "DTO \x7b"] ++ (generate_dto_lists properties).1 ++
    [""] ++ (generate_dto_lists properties).2 ++ ["\x7d"]

/-- Embedding of `generate_dto` (the joined text). -/
def generate_dto (class_name : String) (properties : List String) : String :=
  joinLines (generate_dto_lines class_name properties)

/-- Embedding of `generate_response_dto` up to the final `"\n".join` (the
function takes no input at all). -/
def generate_response_dto_lines : List String :=
  ["public class ResponseDTO \x7b",
   "    private String status;",
   "    private String orderId;",
   "    private String message;",
   "    private String error;",
   "    public String getStatus() \x7b return status; \x7d",
   "    public void setStatus(String status) \x7b this.status = status; \x7d",
   "    public String getOrderId() \x7b return orderId; \x7d",
   "    public void setOrderId(String orderId) \x7b this.orderId = orderId; \x7d",
   "    public String getMessage() \x7b return message; \x7d",
   "    public void setMessage(String message) \x7b this.message = message; \x7d",
   "    public String getError() \x7b return error; \x7d",
   "    public void setError(String error) \x7b this.error = error; \x7d",
   "\x7d"]

/-- Embedding of `generate_response_dto` (the joined text). -/
def generate_response_dto : String := joinLines generate_response_dto_lines

/-- A Python list index expression: an integer, or (by mistake) a string.
Indexing a list with a string raises `TypeError`. -/
inductive PyIndex where
  | int (n : Nat)
  | str (s : String)

/-- Embedding of Python list subscription `xs[i]`. -/
def pyListGet (xs : List String) : PyIndex → Except String String
  | .int n =>
    match xs.get? n with
    | some v => Except.ok v
    | none => Except.error "IndexError: list index out of range"
  | .str _ => Except.error "TypeError: list indices must be integers or slices, not str"

/-- Embedding of `generate_impex` (project_up variant). The three subscripts
of the populated row are evaluated left to right; note that the source's
conditional `properties.index('userId') if 'userId' in properties else
'userId'` chooses between an integer index and the string `'userId'` as the
subscript, so when `orderId` is present but `userId` (or `paymentMethod`)
is absent the subscription raises `TypeError`. -/
def generate_impex (class_name : String) (properties : List String) : Except String String :=
  if properties.contains "orderId" then do
    let v1 ← pyListGet properties (PyIndex.int (properties.indexOf "orderId"))
    let v2 ← pyListGet properties
      (if properties.contains "userId" then PyIndex.int (properties.indexOf "userId")
       else PyIndex.str "userId")
    let v3 ← pyListGet properties
      (if properties.contains "paymentMethod" then PyIndex.int (properties.indexOf "paymentMethod")
       else PyIndex.str "paymentMethod")
    Except.ok (joinLines
      ["INSERT_UPDATE Order;code[unique=true];user(uid);paymentType(code)",
       ";" ++ pyLower class_name ++ "_" ++ v1 ++ ";" ++ v2 ++ ";" ++ v3])
  else
    Except.ok (joinLines
      ["INSERT_UPDATE Order;code[unique=true];user(uid);paymentType(code)",
       ";" ++ pyLower class_name ++ "_default;default;default"])

/-! ## Extraction loop over the parsed tree -/

/-- One node yielded by iterating the parsed javalang tree (`for path, node
in java_tree`), restricted to the three node types the extraction loop
matches on. -/
inductive WalkNode where
  | classDecl (c : ClassDeclaration)
  | methodDecl (m : MethodDecl)
  | fieldDecl (declarators : List String)
  | otherNode

/-- The four accumulator variables of the extraction loop. -/
structure Extracted where
  class_name : Option String
  methods : List MethodDecl
  properties : List String
  is_controller : Bool

/-- One step of the extraction loop: a `ClassDeclaration` overwrites the
class name and the classification, a `MethodDeclaration` is appended to
`methods`, each declarator of a `FieldDeclaration` is appended to
`properties`, every other node is ignored. -/
def extractStep (st : Extracted) : WalkNode → Extracted
  | WalkNode.classDecl c =>
    { st with class_name := some c.name, is_controller := is_controller_command c }
  | WalkNode.methodDecl m => { st with methods := st.methods ++ [m] }
  | WalkNode.fieldDecl ds => { st with properties := st.properties ++ ds }
  | WalkNode.otherNode => st

/-- Embedding of the extraction loop of `convert_hcl_to_sap` /
`convert_hcl_to_sap_files` over the walked tree. -/
def extract (walk : List WalkNode) : Extracted :=
  walk.foldl extractStep ⟨none, [], [], false⟩

/-- The class declarations among the walked nodes. -/
def walkClassDecls (walk : List WalkNode) : List ClassDeclaration :=
  walk.filterMap (fun n => match n with
    | WalkNode.classDecl c => some c
    | _ => none)

/-- The method declarations among the walked nodes. -/
def walkMethodDecls (walk : List WalkNode) : List MethodDecl :=
  walk.filterMap (fun n => match n with
    | WalkNode.methodDecl m => some m
    | _ => none)

/-- The field declarators among the walked nodes, flattened in order. -/
def walkFieldNames (walk : List WalkNode) : List String :=
  (walk.filterMap (fun n => match n with
    | WalkNode.fieldDecl ds => some ds
    | _ => none)).flatMap id

/-! ## String-mode conversion pipeline (`convert_hcl_to_sap`) -/

/-- The `spring_config` text assembled in `convert_hcl_to_sap` /
`convert_hcl_to_sap_files`: the response object, the DTO, the service bean
line, and the facade bean line or an empty string. -/
def spring_config_text (class_name : String) (properties : List String)
    (use_facade : Bool) : String :=
  joinLines
    [generate_response_dto,
     "",
     generate_dto class_name properties,
     "",
     "<bean id=\x27" ++ pyLower class_name ++ "Service\x27 class=\x27com.example." ++
       class_name ++ "Service\x27/>",
     if use_facade then
       "<bean id=\x27" ++ pyLower class_name ++ "Facade\x27 class=\x27com.example." ++
         class_name ++ "Facade\x27/>"
     else ""]

/-- The JSON payload of a successful `convert_hcl_to_sap` call. -/
structure ConvOutput where
  spring_controller : String
  spring_facade : String
  spring_service : String
  spring_config : String
  impex : String

/-- The result of `convert_hcl_to_sap`: the error payload (modelled by its
`error` string; the merged config boilerplate and the 50-character code
excerpt in the parse-failure message are not modelled, the source text
itself being outside the embedding) or the success payload. -/
inductive ConvResult where
  | error (msg : String)
  | ok (out : ConvOutput)

/-- Embedding of `convert_hcl_to_sap(hcl_code)` from the parse result
onward: `none` models `parse_hcl_java_code` returning `None`; `some walk`
models the iterated tree. Mirrors the extraction loop, the two rejection
checks (Python's `if not class_name` also rejects an empty name), the
generation step — inside which only `generate_impex` can raise, surfacing
as a `Generation failed` error — and the result payload. -/
def convert_hcl_to_sap : Option (List WalkNode) → ConvResult
  | none => ConvResult.error "Invalid HCL Java code"
  | some walk =>
    let ex := extract walk
    match ex.class_name with
    | none => ConvResult.error "No class found in HCL code"
    | some cn =>
      if cn == "" then ConvResult.error "No class found in HCL code"
      else if !ex.is_controller then
        ConvResult.error ("Class " ++ cn ++
          " does not extend ControllerCommandImpl or implement ControllerCommand")
      else
        let use_facade := needs_facade ex.methods ex.properties
        let spring_controller := generate_spring_controller cn ex.methods ex.properties use_facade
        let spring_facade :=
          if use_facade then generate_spring_facade cn ex.methods ex.properties else ""
        let spring_service := generate_spring_service cn ex.methods
        let spring_config := spring_config_text cn ex.properties use_facade
        match generate_impex cn ex.properties with
        | Except.error e => ConvResult.error ("Generation failed: " ++ e)
        | Except.ok impex =>
          ConvResult.ok ⟨spring_controller, spring_facade, spring_service, spring_config, impex⟩

/-! ## File-mode batch pipeline (`convert_hcl_to_sap_files`) -/

/-- The per-unit `output_data` of the file-based pipeline (which does not
generate an impex). -/
structure OutputData where
  spring_controller : String
  spring_facade : String
  spring_service : String
  spring_config : String

/-- The artifact files `save_output_files` writes for one class, in source
order: the controller, the facade if the facade text is truthy (nonempty),
the service, the config. -/
def plannedFiles (class_name : String) (output : OutputData) : List (String × String) :=
  [(class_name ++ "Controller.java", output.spring_controller)] ++
  (if output.spring_facade == "" then []
   else [(class_name ++ "Facade.java", output.spring_facade)]) ++
  [(class_name ++ "Service.java", output.spring_service),
   (class_name ++ "Config.java", output.spring_config)]

/-- Sequential file writing with an outcome oracle `io` (`none` = the write
succeeds, `some msg` = opening/writing that path raises with message
`msg`): writes stop at the first failure, and the files already written
stay written. -/
def writeAll (io : String → Option String) : List (String × String) → List String × Option String
  | [] => ([], none)
  | (fname, _content) :: rest =>
    match io fname with
    | some e => ([], some e)
    | none =>
      let result := writeAll io rest
      (fname :: result.1, result.2)

/-- Embedding of `save_output_files` (directory creation is not modelled;
a `mkdir` fault surfaces like any other raised error at the same catch
boundary): returns the files actually written and the raised error, if
any. -/
def save_output_files (io : String → Option String) (class_name : String)
    (output : OutputData) : List String × Option String :=
  writeAll io (plannedFiles class_name output)

/-- One source unit of the batch: its path, the outcome of reading and
parsing it (`Except.error` = the read raised; `Except.ok none` = the parse
failed; `Except.ok (some walk)` = the iterated tree), and the write oracle
for its output files. -/
structure SourceUnit where
  file : String
  readResult : Except String (Option (List WalkNode))
  io : String → Option String

/-- One entry of the batch report. -/
inductive ReportEntry where
  | success (file : String) (class_name : String)
  | error (file : String) (msg : String)
deriving DecidableEq, Repr

/-- The `file` key of a report entry. -/
def ReportEntry.file : ReportEntry → String
  | ReportEntry.success f _ => f
  | ReportEntry.error f _ => f

/-- Whether the entry is an error entry. -/
def ReportEntry.isError : ReportEntry → Bool
  | ReportEntry.success _ _ => false
  | ReportEntry.error _ _ => true

/-- Embedding of one iteration of the loop of `convert_hcl_to_sap_files`:
the report entry appended for the unit, paired with the output files
written for it. Every failure (read fault, parse failure, missing class,
class outside the command family, fault while generating or saving) is
converted into an error entry at this boundary; the function is total, the
modelled form of "no exception escapes the per-unit handler". -/
def processUnit (u : SourceUnit) : ReportEntry × List String :=
  match u.readResult with
  | Except.error e => (ReportEntry.error u.file ("File processing failed: " ++ e), [])
  | Except.ok none => (ReportEntry.error u.file "Invalid Java code", [])
  | Except.ok (some walk) =>
    let ex := extract walk
    match ex.class_name with
    | none => (ReportEntry.error u.file "No class found in HCL code", [])
    | some cn =>
      if cn == "" then (ReportEntry.error u.file "No class found in HCL code", [])
      else if !ex.is_controller then
        (ReportEntry.error u.file ("Class " ++ cn ++
          " does not extend ControllerCommandImpl or implement ControllerCommand"), [])
      else
        let use_facade := needs_facade ex.methods ex.properties
        let output : OutputData :=
          ⟨generate_spring_controller cn ex.methods ex.properties use_facade,
           if use_facade then generate_spring_facade cn ex.methods ex.properties else "",
           generate_spring_service cn ex.methods,
           spring_config_text cn ex.properties use_facade⟩
        let saved := save_output_files u.io cn output
        ((match saved.2 with
          | some e => ReportEntry.error u.file ("Conversion failed: " ++ e)
          | none => ReportEntry.success u.file cn), saved.1)

/-- Embedding of the batch loop of `convert_hcl_to_sap_files`: one report
entry appended per unit, in order. -/
def convert_hcl_to_sap_files (units : List SourceUnit) : List ReportEntry :=
  units.foldl (fun acc u => acc ++ [(processUnit u).1]) []

/-- The point in `processUnit` where a unit has survived every rejection
check and is about to be saved: the class name and the generated
`output_data`, or `none` when the unit is rejected before any file is
written. -/
def unitSaveStep (u : SourceUnit) : Option (String × OutputData) :=
  match u.readResult with
  | Except.error _ => none
  | Except.ok none => none
  | Except.ok (some walk) =>
    let ex := extract walk
    match ex.class_name with
    | none => none
    | some cn =>
      if cn == "" then none
      else if !ex.is_controller then none
      else
        let use_facade := needs_facade ex.methods ex.properties
        some (cn,
          ⟨generate_spring_controller cn ex.methods ex.properties use_facade,
           if use_facade then generate_spring_facade cn ex.methods ex.properties else "",
           generate_spring_service cn ex.methods,
           spring_config_text cn ex.properties use_facade⟩)

/-- The names of the complete artifact file set of a unit (empty when the
unit never reaches the saving step). -/
def unitPlannedFiles (u : SourceUnit) : List String :=
  match unitSaveStep u with
  | some (cn, out) => (plannedFiles cn out).map Prod.fst
  | none => []

/-- The last class declaration the tree iteration encounters. -/
def lastClassDecl (walk : List WalkNode) : Option ClassDeclaration :=
  (walkClassDecls walk).getLast?

/-- The response-object fragment assembled inline in the `spring_config` of
`convert_hcl_to_sap` in `src/mcp_hcl_to_sap.py` (the older pipeline):
a single `status` field with its accessor pair. -/
def legacy_response_dto_lines : List String :=
  ["public class ResponseDTO \x7b",
   "    private String status;",
   "    public String getStatus() \x7b return status; \x7d",
   "    public void setStatus(String status) \x7b this.status = status; \x7d",
   "\x7d"]

/-! ## Supporting lemmas -/

theorem getLast?_cons_match {α β : Type} (a : α) (l : List α) (f : α → β) (b : β) :
    (match (a :: l).getLast? with | some x => f x | none => b) =
    (match l.getLast? with | some x => f x | none => f a) := by
  induction l generalizing a with
  | nil => simp
  | cons y ys ih =>
    rw [List.getLast?_cons_cons]
    cases h : (y :: ys).getLast? with
    | none => simp at h
    | some x => simp

theorem foldl_snoc_map {α β : Type} (f : α → β) (l : List α) (acc : List β) :
    l.foldl (fun a x => a ++ [f x]) acc = acc ++ l.map f := by
  induction l generalizing acc with
  | nil => simp
  | cons x xs ih => simp [ih]

theorem foldl_if_append {α β : Type} (p : α → Bool) (L : List β) (l : List α) (acc : List β) :
    l.foldl (fun a x => if p x then a ++ L else a) acc =
      acc ++ (l.filter p).flatMap (fun _ => L) := by
  induction l generalizing acc with
  | nil => simp
  | cons x xs ih =>
    by_cases h : p x = true
    · simp [List.foldl_cons, h, ih, List.filter_cons]
    · simp [List.foldl_cons, h, ih, List.filter_cons]

theorem generate_dto_lists_eq (properties : List String) :
    generate_dto_lists properties =
      (properties.map dtoFieldLine, properties.flatMap dtoAccessorLines) := by
  have key : ∀ (ps : List String) (a b : List String),
      ps.foldl (fun acc prop => (acc.1 ++ [dtoFieldLine prop], acc.2 ++ dtoAccessorLines prop))
        (a, b) = (a ++ ps.map dtoFieldLine, b ++ ps.flatMap dtoAccessorLines) := by
    intro ps
    induction ps with
    | nil => simp
    | cons p rest ih => intro a b; simp [ih]
  simpa using key properties [] []

theorem writeAll_prefix (io : String → Option String) (files : List (String × String)) :
    (writeAll io files).1 <+: files.map Prod.fst ∧
    ((writeAll io files).2 = none → (writeAll io files).1 = files.map Prod.fst) := by
  induction files with
  | nil => simp [writeAll]
  | cons f rest ih =>
    obtain ⟨fname, content⟩ := f
    cases h : io fname with
    | some e =>
      refine ⟨?_, ?_⟩
      · simp [writeAll, h, List.nil_prefix]
      · intro hn; simp [writeAll, h] at hn
    | none =>
      refine ⟨?_, ?_⟩
      · simpa [writeAll, h, List.cons_prefix_cons] using ih.1
      · intro hn
        simp only [writeAll, h] at hn ⊢
        simp [ih.2 hn]

theorem generate_spring_facade_ne_empty (class_name : String) (methods : List MethodDecl)
    (properties : List String) :
    generate_spring_facade class_name methods properties ≠ "" := by
  rw [generate_spring_facade, List.cons_append]
  exact joinLines_cons_ne_empty _ _ (by decide)

theorem convert_files_eq_map (units : List SourceUnit) :
    convert_hcl_to_sap_files units = units.map (fun u => (processUnit u).1) := by
  rw [convert_hcl_to_sap_files, foldl_snoc_map]
  simp

theorem processUnit_file (u : SourceUnit) : ((processUnit u).1).file = u.file := by
  rw [processUnit]
  cases hr : u.readResult with
  | error e => simp [ReportEntry.file]
  | ok o =>
    cases o with
    | none => simp [ReportEntry.file]
    | some walk =>
      simp only []
      cases hcn : (extract walk).class_name with
      | none => simp [ReportEntry.file]
      | some cn =>
        simp only []
        by_cases h1 : cn == ""
        · simp [h1, ReportEntry.file]
        · simp only [h1]
          by_cases h2 : !(extract walk).is_controller
          · simp [h1, h2, ReportEntry.file]
          · simp only [h1, h2]
            cases hs : (save_output_files u.io cn
                ⟨generate_spring_controller cn (extract walk).methods (extract walk).properties
                   (needs_facade (extract walk).methods (extract walk).properties),
                 if needs_facade (extract walk).methods (extract walk).properties then
                   generate_spring_facade cn (extract walk).methods (extract walk).properties
                 else "",
                 generate_spring_service cn (extract walk).methods,
                 spring_config_text cn (extract walk).properties
                   (needs_facade (extract walk).methods (extract walk).properties)⟩).2 with
            | some e => simp [hs, ReportEntry.file]
            | none => simp [hs, ReportEntry.file]

theorem getLast?_cons_elim {α β : Type} (a : α) (l : List α) (f : α → β) (b : β) :
    ((a :: l).getLast?).elim b f = (l.getLast?).elim (f a) f := by
  induction l generalizing a with
  | nil => simp
  | cons y ys ih =>
    rw [List.getLast?_cons_cons]
    cases h : (y :: ys).getLast? with
    | none => simp at h
    | some x => simp

theorem extract_foldl_spec (walk : List WalkNode) :
    ∀ st : Extracted,
      (walk.foldl extractStep st).class_name =
        ((walkClassDecls walk).getLast?).elim st.class_name (fun c => some c.name) ∧
      (walk.foldl extractStep st).is_controller =
        ((walkClassDecls walk).getLast?).elim st.is_controller (fun c => is_controller_command c) ∧
      (walk.foldl extractStep st).methods = st.methods ++ walkMethodDecls walk ∧
      (walk.foldl extractStep st).properties = st.properties ++ walkFieldNames walk := by
  induction walk with
  | nil => intro st; simp [walkClassDecls, walkMethodDecls, walkFieldNames]
  | cons n rest ih =>
    intro st
    cases n with
    | classDecl c =>
      obtain ⟨h1, h2, h3, h4⟩ :=
        ih { st with class_name := some c.name, is_controller := is_controller_command c }
      have hw : walkClassDecls (WalkNode.classDecl c :: rest) = c :: walkClassDecls rest := by
        simp [walkClassDecls, List.filterMap_cons]
      have hm : walkMethodDecls (WalkNode.classDecl c :: rest) = walkMethodDecls rest := by
        simp [walkMethodDecls, List.filterMap_cons]
      have hf : walkFieldNames (WalkNode.classDecl c :: rest) = walkFieldNames rest := by
        simp [walkFieldNames, List.filterMap_cons]
      refine ⟨?_, ?_, ?_, ?_⟩ <;> rw [List.foldl_cons] <;> simp only [extractStep]
      · rw [hw, getLast?_cons_elim]; exact h1
      · rw [hw, getLast?_cons_elim]; exact h2
      · rw [hm]; exact h3
      · rw [hf]; exact h4
    | methodDecl m =>
      obtain ⟨h1, h2, h3, h4⟩ := ih { st with methods := st.methods ++ [m] }
      have hw : walkClassDecls (WalkNode.methodDecl m :: rest) = walkClassDecls rest := by
        simp [walkClassDecls, List.filterMap_cons]
      have hm : walkMethodDecls (WalkNode.methodDecl m :: rest) = m :: walkMethodDecls rest := by
        simp [walkMethodDecls, List.filterMap_cons]
      have hf : walkFieldNames (WalkNode.methodDecl m :: rest) = walkFieldNames rest := by
        simp [walkFieldNames, List.filterMap_cons]
      refine ⟨?_, ?_, ?_, ?_⟩ <;> rw [List.foldl_cons] <;> simp only [extractStep]
      · rw [hw]; exact h1
      · rw [hw]; exact h2
      · rw [hm, h3]; simp
      · rw [hf]; exact h4
    | fieldDecl ds =>
      obtain ⟨h1, h2, h3, h4⟩ := ih { st with properties := st.properties ++ ds }
      have hw : walkClassDecls (WalkNode.fieldDecl ds :: rest) = walkClassDecls rest := by
        simp [walkClassDecls, List.filterMap_cons]
      have hm : walkMethodDecls (WalkNode.fieldDecl ds :: rest) = walkMethodDecls rest := by
        simp [walkMethodDecls, List.filterMap_cons]
      have hf : walkFieldNames (WalkNode.fieldDecl ds :: rest) = ds ++ walkFieldNames rest := by
        simp [walkFieldNames, List.filterMap_cons]
      refine ⟨?_, ?_, ?_, ?_⟩ <;> rw [List.foldl_cons] <;> simp only [extractStep]
      · rw [hw]; exact h1
      · rw [hw]; exact h2
      · rw [hm]; exact h3
      · rw [hf, h4]; simp
    | otherNode =>
      obtain ⟨h1, h2, h3, h4⟩ := ih st
      have hw : walkClassDecls (WalkNode.otherNode :: rest) = walkClassDecls rest := by
        simp [walkClassDecls, List.filterMap_cons]
      have hm : walkMethodDecls (WalkNode.otherNode :: rest) = walkMethodDecls rest := by
        simp [walkMethodDecls, List.filterMap_cons]
      have hf : walkFieldNames (WalkNode.otherNode :: rest) = walkFieldNames rest := by
        simp [walkFieldNames, List.filterMap_cons]
      refine ⟨?_, ?_, ?_, ?_⟩ <;> rw [List.foldl_cons] <;> simp only [extractStep]
      · rw [hw]; exact h1
      · rw [hw]; exact h2
      · rw [hm]; exact h3
      · rw [hf]; exact h4

/-! ## Claim theorems -/

/-- C1: for every parsed class declaration, `is_controller_command` returns
true if and only if the class's implements list contains an interface whose
short name is exactly `ControllerCommand`, or its extends reference's short
name is exactly `ControllerCommandImpl`; for every other class declaration
it returns false. -/
theorem is_controller_command_iff (c : ClassDeclaration) :
    is_controller_command c = true ↔
      ((∃ i ∈ c.implements.getD [], i.name = "ControllerCommand") ∨
       (∃ e, c.«extends» = some e ∧ e.name = "ControllerCommandImpl")) := by
  cases himpl : c.implements <;> cases hext : c.«extends» <;>
    simp [is_controller_command, himpl, hext, List.any_eq_true]

/-- C2: `needs_facade` returns exactly `hasConditional OR responseWriteCount
> 1 OR usesExecutionContext`, where the three flags are computed over the
nodes of the subtrees of the methods named `performExecute` (an
if-statement node appears; the count of invocations with member `put` and
receiver `resp`; any invocation with receiver `commandContext`); and when
no method named `performExecute` exists the result is false. -/
theorem needs_facade_spec (methods : List MethodDecl) (properties : List String) :
    needs_facade methods properties =
      (specHasConditional methods || decide (specResponseWriteCount methods > 1) ||
       specUsesExecutionContext methods) ∧
    (methods.filter (fun m => m.name == "performExecute") = [] →
      needs_facade methods properties = false) := by
  have main : needs_facade methods properties =
      (specHasConditional methods || decide (specResponseWriteCount methods > 1) ||
       specUsesExecutionContext methods) := by
    simp only [needs_facade]
    rw [needs_facade_foldl, foldl_facadeVisitor]
    simp [specHasConditional, specResponseWriteCount, specUsesExecutionContext]
  refine ⟨main, fun h => ?_⟩
  have hperf : perfNodes methods = [] := by simp [perfNodes, h]
  rw [main]
  simp [specHasConditional, specResponseWriteCount, specUsesExecutionContext, hperf]

/-- Closed witness for C2: on a method list with no `performExecute` at all
the hypothesis of the vacuous-case conjunct holds and `needs_facade` is
false. -/
theorem needs_facade_spec_witness : needs_facade [] [] = false :=
  (needs_facade_spec [] []).2 rfl

/-- C10: when a unit's walked tree holds several class declarations, the
extraction uses the name and command-family status of the last class
declaration encountered, while the method list and the field-name list
aggregate the method declarations and field declarators of the whole walk. -/
theorem extract_last_class_aggregation (walk : List WalkNode) :
    (extract walk).class_name = (lastClassDecl walk).map (fun c => c.name) ∧
    (extract walk).is_controller = ((lastClassDecl walk).map is_controller_command).getD false ∧
    (extract walk).methods = walkMethodDecls walk ∧
    (extract walk).properties = walkFieldNames walk := by
  obtain ⟨h1, h2, h3, h4⟩ := extract_foldl_spec walk ⟨none, [], [], false⟩
  refine ⟨?_, ?_, ?_, ?_⟩
  · rw [extract, h1, lastClassDecl]
    cases (walkClassDecls walk).getLast? <;> simp
  · rw [extract, h2, lastClassDecl]
    cases (walkClassDecls walk).getLast? <;> simp
  · rw [extract, h3]; simp
  · rw [extract, h4]; simp

/-- C7: the embedded `traverse_ast` is a total function (termination on
every finite tree), and running it visits exactly the node itself and
every non-primitive node reachable through the `children` relation, with
one level of sequence flattening, skipping primitive and absent children,
in pre-order; when the node identities (labels) of the tree are pairwise
distinct — the acyclicity/no-sharing assumption — no node is visited more
than once; and a node whose `children` accessor is missing is visited
itself and treated as having no children rather than aborting. -/
theorem traverse_ast_visits_reachable (n : JNode) :
    visitedNodes n = reachNodes n ∧
    (((reachNodes n).map JNode.label).Nodup → ((visitedNodes n).map JNode.label).Nodup) ∧
    (∀ l k, visitedNodes (JNode.mk l k ChildrenAttr.noAttr) = [JNode.mk l k ChildrenAttr.noAttr]) := by
  refine ⟨visitedNodes_eq_reachNodes n, ?_, ?_⟩
  · intro h
    rw [visitedNodes_eq_reachNodes]
    exact h
  · intro l k
    rw [visitedNodes_eq_reachNodes]
    rfl

/-- A small concrete tree: a method-declaration node with an if-statement
child, a sequence child holding a primitive and an invocation node, and an
absent child. -/
def sampleTree : JNode :=
  JNode.mk 0 (NodeKind.other "MethodDeclaration")
    (ChildrenAttr.attr
      (ChildList.cons (JChild.single (JItem.node (JNode.mk 1 NodeKind.ifStatement ChildrenAttr.noAttr)))
        (ChildList.cons (JChild.seq (ItemList.cons JItem.prim
          (ItemList.cons (JItem.node (JNode.mk 2 (NodeKind.methodInvocation "put" (some "resp"))
            ChildrenAttr.noAttr)) ItemList.nil)))
          (ChildList.cons (JChild.single JItem.absent) ChildList.nil))))

/-- Closed witness for C7 at `sampleTree`, discharging the distinct-labels
hypothesis. -/
theorem traverse_ast_visits_reachable_witness :
    ((visitedNodes sampleTree).map JNode.label).Nodup ∧
    visitedNodes sampleTree = reachNodes sampleTree :=
  ⟨(traverse_ast_visits_reachable sampleTree).2.1 (by decide),
   (traverse_ast_visits_reachable sampleTree).1⟩

/-- C4: for every list of nonempty field names, the DTO lines are the fixed
header, then exactly one string-typed field line per entry in order, then a
blank line, then exactly one getter/setter pair per entry in order —
duplicates included, nothing de-duplicated; the field list has one line
per entry and the accessor list two. -/
theorem generate_dto_field_fidelity (class_name : String) (properties : List String)
    (h : ∀ p ∈ properties, p ≠ "") :
    generate_dto_lines class_name properties =
      ["public class " ++ class_name ++ "DTO \x7b"] ++ properties.map dtoFieldLine ++
        [""] ++ properties.flatMap dtoAccessorLines ++ ["\x7d"] ∧
    (generate_dto_lists properties).1.length = properties.length ∧
    (generate_dto_lists properties).2.length = 2 * properties.length := by
  have he := generate_dto_lists_eq properties
  have hflat : ∀ ps : List String, (ps.flatMap dtoAccessorLines).length = 2 * ps.length := by
    intro ps
    induction ps with
    | nil => simp
    | cons p rest ih =>
      simp only [List.flatMap_cons, List.length_append, ih, dtoAccessorLines]
      simp
      omega
  refine ⟨?_, ?_, ?_⟩
  · rw [generate_dto_lines, he]
  · rw [he]; simp
  · rw [he]; simpa using hflat properties

/-- Closed witness for C4 on a duplicated field name, discharging the
nonemptiness hypothesis. -/
theorem generate_dto_field_fidelity_witness :
    generate_dto_lines "Foo" ["orderId", "orderId"] =
      ["public class FooDTO \x7b"] ++ ["orderId", "orderId"].map dtoFieldLine ++
        [""] ++ ["orderId", "orderId"].flatMap dtoAccessorLines ++ ["\x7d"] :=
  (generate_dto_field_fidelity "Foo" ["orderId", "orderId"] (by decide)).1

/-- C9: evaluating `generate_impex` where `orderId` is present but `userId`
is absent raises `TypeError` — the subscript conditional picks the string
`'userId'` as a list index — instead of returning the placeholder statement
the claim promises; with all three names present it returns the populated
row, and with `orderId` absent the placeholder row. -/
theorem generate_impex_type_error :
    generate_impex "Foo" ["orderId"] =
      Except.error "TypeError: list indices must be integers or slices, not str" ∧
    generate_impex "Foo" ["orderId", "userId", "paymentMethod"] =
      Except.ok
        "INSERT_UPDATE Order;code[unique=true];user(uid);paymentType(code)\n;foo_orderId;userId;paymentMethod" ∧
    generate_impex "Foo" ["userId"] =
      Except.ok
        "INSERT_UPDATE Order;code[unique=true];user(uid);paymentType(code)\n;foo_default;default;default" :=
  ⟨rfl, rfl, rfl⟩

theorem convert_ok_inv (walk : List WalkNode) (r : ConvOutput)
    (h : convert_hcl_to_sap (some walk) = ConvResult.ok r) :
    ∃ cn impex, (extract walk).class_name = some cn ∧ (cn == "") = false ∧
      (extract walk).is_controller = true ∧
      generate_impex cn (extract walk).properties = Except.ok impex ∧
      r = ⟨generate_spring_controller cn (extract walk).methods (extract walk).properties
             (needs_facade (extract walk).methods (extract walk).properties),
           (if needs_facade (extract walk).methods (extract walk).properties then
             generate_spring_facade cn (extract walk).methods (extract walk).properties else ""),
           generate_spring_service cn (extract walk).methods,
           spring_config_text cn (extract walk).properties
             (needs_facade (extract walk).methods (extract walk).properties),
           impex⟩ := by
  simp only [convert_hcl_to_sap] at h
  split at h
  · exact absurd h (by simp)
  · rename_i cn hcn
    split at h
    · exact absurd h (by simp)
    · rename_i h1
      split at h
      · exact absurd h (by simp)
      · rename_i h2
        split at h
        · exact absurd h (by simp)
        · rename_i impex himp
          refine ⟨cn, impex, hcn, by simpa using h1, by simpa using h2, himp, ?_⟩
          cases h
          rfl

/-- C3: for every conversion that succeeds, the facade artifact is nonempty
exactly when `needs_facade` is true, and the controller text is the fixed
header followed by one POST endpoint block — routed to `/api/` plus the
lower-cased class name and delegating to the facade when `needs_facade` is
true and to the service otherwise — per method literally named
`performExecute`, then the closing brace. -/
theorem convert_ok_controller_facade (walk : List WalkNode) (r : ConvOutput)
    (h : convert_hcl_to_sap (some walk) = ConvResult.ok r) :
    ∃ cn, (extract walk).class_name = some cn ∧
      ((r.spring_facade ≠ "") ↔
        needs_facade (extract walk).methods (extract walk).properties = true) ∧
      r.spring_controller = joinLines
        (controllerHeaderLines cn (needs_facade (extract walk).methods (extract walk).properties) ++
         ((extract walk).methods.filter (fun m => m.name == "performExecute")).flatMap
           (fun _ => controllerEndpointLines cn
             (needs_facade (extract walk).methods (extract walk).properties)) ++
         ["\x7d"]) := by
  obtain ⟨cn, impex, hcn, hne, hic, himp, hr⟩ := convert_ok_inv walk r h
  subst hr
  refine ⟨cn, hcn, ?_, ?_⟩
  · cases huf : needs_facade (extract walk).methods (extract walk).properties with
    | true => simp [huf, generate_spring_facade_ne_empty]
    | false => simp [huf]
  · simp only [generate_spring_controller, generate_spring_controller_lines]
    rw [foldl_if_append]

/-- A concrete walked unit: a command-family class `Foo`, one
`performExecute` method whose subtree is `sampleTree` (it holds an
if-statement), and the three well-known field names. -/
def sampleWalk : List WalkNode :=
  [WalkNode.classDecl ⟨"Foo", some [⟨"ControllerCommand"⟩], none⟩,
   WalkNode.methodDecl ⟨"performExecute", sampleTree⟩,
   WalkNode.fieldDecl ["orderId", "userId", "paymentMethod"]]

/-- The successful conversion payload of `sampleWalk`. -/
def sampleConvOut : ConvOutput :=
  match convert_hcl_to_sap (some sampleWalk) with
  | ConvResult.ok r => r
  | ConvResult.error _ => ⟨"", "", "", "", ""⟩

/-- Closed witness for C3 at `sampleWalk`, discharging the successful-
conversion hypothesis. -/
theorem convert_ok_controller_facade_witness :
    ∃ cn, (extract sampleWalk).class_name = some cn ∧
      ((sampleConvOut.spring_facade ≠ "") ↔
        needs_facade (extract sampleWalk).methods (extract sampleWalk).properties = true) ∧
      sampleConvOut.spring_controller = joinLines
        (controllerHeaderLines cn
           (needs_facade (extract sampleWalk).methods (extract sampleWalk).properties) ++
         ((extract sampleWalk).methods.filter (fun m => m.name == "performExecute")).flatMap
           (fun _ => controllerEndpointLines cn
             (needs_facade (extract sampleWalk).methods (extract sampleWalk).properties)) ++
         ["\x7d"]) :=
  convert_ok_controller_facade sampleWalk sampleConvOut rfl

/-- A string-typed Java field declaration line, recognised by its prefix. -/
def isFieldDeclLine (l : String) : Bool :=
  "    private String ".data.isPrefixOf l.data

/-- C8 counterexample: the response-object artifact assembled by the older
`mcp_hcl_to_sap` pipeline has exactly one `private String` field line —
`status` — and no `orderId` field at all, not the four fields the claim
states for every generated response object; the project_up artifact does
have four. -/
theorem legacy_response_dto_counterexample :
    legacy_response_dto_lines.countP (fun l => isFieldDeclLine l) = 1 ∧
    legacy_response_dto_lines.count "    private String orderId;" = 0 ∧
    generate_response_dto_lines.countP (fun l => isFieldDeclLine l) = 4 := by
  decide

/-- C8 (amended): in the project_up pipeline, every successful conversion's
`spring_config` begins with the fixed response-object text, whose field
lines are exactly the four `status`, `orderId`, `message`, `error`, each
accompanied by its getter and setter — independent of the input class; the
older `mcp_hcl_to_sap` pipeline instead emits a fixed response object with
only the `status` field (see the counterexample). -/
theorem response_dto_fixed_shape (walk : List WalkNode) (r : ConvOutput)
    (h : convert_hcl_to_sap (some walk) = ConvResult.ok r) :
    (∃ rest, r.spring_config = generate_response_dto ++ "\n" ++ rest) ∧
    generate_response_dto_lines.filter (fun l => isFieldDeclLine l) =
      ["    private String status;", "    private String orderId;",
       "    private String message;", "    private String error;"] ∧
    ("    public String getStatus() \x7b return status; \x7d" ∈ generate_response_dto_lines ∧
     "    public void setStatus(String status) \x7b this.status = status; \x7d" ∈ generate_response_dto_lines ∧
     "    public String getOrderId() \x7b return orderId; \x7d" ∈ generate_response_dto_lines ∧
     "    public void setOrderId(String orderId) \x7b this.orderId = orderId; \x7d" ∈ generate_response_dto_lines ∧
     "    public String getMessage() \x7b return message; \x7d" ∈ generate_response_dto_lines ∧
     "    public void setMessage(String message) \x7b this.message = message; \x7d" ∈ generate_response_dto_lines ∧
     "    public String getError() \x7b return error; \x7d" ∈ generate_response_dto_lines ∧
     "    public void setError(String error) \x7b this.error = error; \x7d" ∈ generate_response_dto_lines) := by
  obtain ⟨cn, impex, hcn, hne, hic, himp, hr⟩ := convert_ok_inv walk r h
  subst hr
  exact ⟨⟨_, rfl⟩, by decide, by decide⟩

/-- Closed witness for C8 at `sampleWalk`, discharging the successful-
conversion hypothesis. -/
theorem response_dto_fixed_shape_witness :
    ∃ rest, sampleConvOut.spring_config = generate_response_dto ++ "\n" ++ rest :=
  (response_dto_fixed_shape sampleWalk sampleConvOut rfl).1

/-- C5: the batch produces exactly one report entry per unit, in order —
each unit's outcome, with every failure (read fault, parse failure, missing
class, class outside the command family, generation/saving fault) caught at
the per-unit boundary (`processUnit` is total: the modelled form of "no
exception escapes"), becomes one entry naming that unit's file, and the
batch continues with the remaining units; read faults and parse failures
are recorded with their respective messages. -/
theorem convert_files_report (units : List SourceUnit) :
    convert_hcl_to_sap_files units = units.map (fun u => (processUnit u).1) ∧
    (convert_hcl_to_sap_files units).length = units.length ∧
    (∀ u : SourceUnit, ((processUnit u).1).file = u.file) ∧
    (∀ u : SourceUnit, ∀ e, u.readResult = Except.error e →
      (processUnit u).1 = ReportEntry.error u.file ("File processing failed: " ++ e)) ∧
    (∀ u : SourceUnit, u.readResult = Except.ok none →
      (processUnit u).1 = ReportEntry.error u.file "Invalid Java code") := by
  refine ⟨convert_files_eq_map units, ?_, processUnit_file, ?_, ?_⟩
  · rw [convert_files_eq_map]; simp
  · intro u e he; simp [processUnit, he]
  · intro u he; simp [processUnit, he]

/-- A unit whose source text fails to parse. -/
def sampleParseFailUnit : SourceUnit :=
  ⟨"bad.java", Except.ok none, fun _ => none⟩

/-- Closed witness for C5, discharging the parse-failure hypothesis at a
concrete unit. -/
theorem convert_files_report_witness :
    (processUnit sampleParseFailUnit).1 =
      ReportEntry.error sampleParseFailUnit.file "Invalid Java code" :=
  (convert_files_report []).2.2.2.2 sampleParseFailUnit rfl

/-- A write oracle whose write of `FooService.java` raises. -/
def failingIO : String → Option String :=
  fun fname => if fname == "FooService.java" then some "disk full" else none

/-- A unit that classifies and generates successfully but whose third
output-file write raises. -/
def sampleFailingUnit : SourceUnit :=
  ⟨"Foo.java", Except.ok (some sampleWalk), failingIO⟩

/-- A unit identical to `sampleFailingUnit` whose writes all succeed. -/
def sampleGoodUnit : SourceUnit :=
  ⟨"Foo.java", Except.ok (some sampleWalk), fun _ => none⟩

/-- C6 counterexample: `sampleFailingUnit` ends in rejection — its report
entry is an error — yet its first two artifact files were written, so "no
output file for that unit is written" fails as stated. -/
theorem save_partial_write_counterexample :
    (processUnit sampleFailingUnit).1 =
      ReportEntry.error "Foo.java" "Conversion failed: disk full" ∧
    (processUnit sampleFailingUnit).2 = ["FooController.java", "FooFacade.java"] :=
  ⟨rfl, rfl⟩

/-- C6 (amended): a unit rejected before the saving step (read fault, parse
failure, no class declaration, empty class name, class outside the command
family) writes no files, and a successful unit writes exactly its complete
artifact set; in general the files written are an initial prefix of the
planned artifact set, so a fault while saving can leave a proper prefix of
the unit's files written (see the counterexample). -/
theorem unit_writes_spec (u : SourceUnit) :
    (processUnit u).2 <+: unitPlannedFiles u ∧
    (unitSaveStep u = none → (processUnit u).2 = []) ∧
    (∀ cn, (processUnit u).1 = ReportEntry.success u.file cn →
      (processUnit u).2 = unitPlannedFiles u) := by
  cases hr : u.readResult with
  | error e =>
    refine ⟨?_, fun _ => ?_, fun cn hc => ?_⟩
    · simp [processUnit, hr, List.nil_prefix]
    · simp [processUnit, hr]
    · simp [processUnit, hr] at hc
  | ok o =>
    cases o with
    | none =>
      refine ⟨?_, fun _ => ?_, fun cn hc => ?_⟩
      · simp [processUnit, hr, List.nil_prefix]
      · simp [processUnit, hr]
      · simp [processUnit, hr] at hc
    | some walk =>
      cases hcn : (extract walk).class_name with
      | none =>
        refine ⟨?_, fun _ => ?_, fun cn hc => ?_⟩
        · simp [processUnit, hr, hcn, List.nil_prefix]
        · simp [processUnit, hr, hcn]
        · simp [processUnit, hr, hcn] at hc
      | some cn0 =>
        by_cases h1 : (cn0 == "") = true
        · refine ⟨?_, fun _ => ?_, fun cn hc => ?_⟩
          · simp [processUnit, hr, hcn, h1, List.nil_prefix]
          · simp [processUnit, hr, hcn, h1]
          · simp [processUnit, hr, hcn, h1] at hc
        · by_cases h2 : (!(extract walk).is_controller) = true
          · refine ⟨?_, fun _ => ?_, fun cn hc => ?_⟩
            · simp [processUnit, hr, hcn, h1, h2, List.nil_prefix]
            · simp [processUnit, hr, hcn, h1, h2]
            · simp [processUnit, hr, hcn, h1, h2] at hc
          · have hsome : ∃ p, unitSaveStep u = some p := by
              simp [unitSaveStep, hr, hcn, h1, h2]
            obtain ⟨⟨cn1, out1⟩, hp1⟩ := hsome
            have hplan2 : unitPlannedFiles u = (plannedFiles cn1 out1).map Prod.fst := by
              simp [unitPlannedFiles, hp1]
            have hwrites : (processUnit u).2 = (save_output_files u.io cn1 out1).1 ∧
                (processUnit u).1 = (match (save_output_files u.io cn1 out1).2 with
                  | some e => ReportEntry.error u.file ("Conversion failed: " ++ e)
                  | none => ReportEntry.success u.file cn1) := by
              simp [unitSaveStep, hr, hcn, h1, h2] at hp1
              obtain ⟨e1, e2⟩ := hp1
              subst e1
              subst e2
              constructor
              · simp [processUnit, hr, hcn, h1, h2]
              · simp [processUnit, hr, hcn, h1, h2]
            obtain ⟨hw2, hw1⟩ := hwrites
            obtain ⟨hpre, hcomp⟩ := writeAll_prefix u.io (plannedFiles cn1 out1)
            refine ⟨?_, fun hn => by simp [hp1] at hn, fun cn hc2 => ?_⟩
            · rw [hw2, hplan2]
              exact hpre
            · rw [hw1] at hc2
              rw [hw2, hplan2]
              cases hs : (save_output_files u.io cn1 out1).2 with
              | some e => rw [hs] at hc2; simp at hc2
              | none => exact hcomp (by simpa [save_output_files] using hs)

/-- Closed witness for the amended C6: a unit whose writes all succeed
writes exactly its complete planned artifact set, discharging the
success-entry hypothesis at a concrete unit. -/
theorem unit_writes_spec_witness :
    (processUnit sampleGoodUnit).2 = unitPlannedFiles sampleGoodUnit :=
  (unit_writes_spec sampleGoodUnit).2.2 "Foo" rfl
